import Mathlib

/-!
Verification of the log-report pipeline (`main.py`): record ingestion,
date filtering, per-endpoint aggregation and report rendering.

The Python program is shallowly embedded:
* JSON values decoded from log lines become the inductive type `JVal`;
  Python dictionaries are insertion-ordered association lists and
  `dict.get` is `jlookup` (last binding wins, as `json.loads` builds dicts).
* Python numbers are embedded as exact rationals (`Rat`).
* Code that can raise an uncaught exception returns `Except PyErr`.
* The standard-library collaborators (`json.loads`, filesystem access,
  `tabulate`) are abstracted: the JSON decoder is a parameter, a source
  file is a `Source` (missing / unreadable / a list of physical lines),
  and the renderer's input rows are produced instead of the final table
  string.  `datetime.fromisoformat`, `str.replace`, `strftime` and
  `strptime` are modelled concretely below, following CPython's
  (pre-3.11, C-accelerated) documented behaviour.
-/

set_option maxRecDepth 20000

/-- A decoded JSON value.  Python dictionaries keep insertion order, so a
JSON object is an ordered association list. -/
inductive JVal where
  | null : JVal
  | bool : Bool → JVal
  | num : Rat → JVal
  | str : String → JVal
  | arr : List JVal → JVal
  | obj : List (String × JVal) → JVal

/-- Python exceptions that can escape the embedded code. -/
inductive PyErr where
  | attributeError : PyErr
  | typeError : PyErr
deriving DecidableEq

/-- Python truthiness of a JSON-typed value. -/
def JVal.truthy : JVal → Bool
  | .null => false
  | .bool b => b
  | .num q => decide (q ≠ 0)
  | .str s => decide (s ≠ "")
  | .arr xs => !xs.isEmpty
  | .obj kvs => !kvs.isEmpty

/-- Whether a value is a JSON object (a Python dict). -/
def JVal.isObj : JVal → Bool
  | .obj _ => true
  | _ => false

/-- Dictionary lookup.  `json.loads` keeps the last occurrence of a
duplicated key, so the rightmost binding wins. -/
def jlookup : List (String × JVal) → String → Option JVal
  | [], _ => none
  | kv :: rest, k =>
    match jlookup rest k with
    | some v => some v
    | none => if kv.1 = k then some kv.2 else none

/-! ### Dates and timestamps -/

/-- Gregorian leap year, as `calendar.isleap` / `datetime`. -/
def isLeap (y : Nat) : Bool := y % 4 = 0 && (y % 100 ≠ 0 || y % 400 = 0)

/-- Length of a month, as validated by the `datetime` constructor. -/
def daysInMonth (y m : Nat) : Nat :=
  if m = 2 then (if isLeap y then 29 else 28)
  else if m = 4 ∨ m = 6 ∨ m = 9 ∨ m = 11 then 30
  else 31

/-- An aware or naive `datetime`: calendar fields plus an optional UTC
offset in microseconds. -/
structure DT where
  year : Nat
  month : Nat
  day : Nat
  hour : Nat
  minute : Nat
  second : Nat
  micro : Nat
  tzUs : Option Int
deriving DecidableEq

/-- Value of a decimal digit character. -/
def digVal (c : Char) : Option Nat :=
  if c.isDigit then some (c.toNat - 48) else none

/-- Two-digit decimal number. -/
def twoDig (a b : Char) : Option Nat := do
  let x ← digVal a
  let y ← digVal b
  pure (10 * x + y)

/-- Fractional-second part of `fromisoformat`: exactly 3 or 6 digits,
yielding microseconds. -/
def parseFrac : List Char → Option Nat
  | [a, b, c] => do
    let x ← digVal a
    let y ← digVal b
    let z ← digVal c
    pure ((100 * x + 10 * y + z) * 1000)
  | [a, b, c, d, e, f] => do
    let x ← digVal a
    let y ← digVal b
    let z ← digVal c
    let u ← digVal d
    let v ← digVal e
    let w ← digVal f
    pure (100000 * x + 10000 * y + 1000 * z + 100 * u + 10 * v + w)
  | _ => none

/-- `HH[:MM[:SS[.fff[fff]]]]`, the time (and timezone) component grammar
of CPython's pre-3.11 `datetime.fromisoformat`. -/
def parseHMSF : List Char → Option (Nat × Nat × Nat × Nat)
  | a :: b :: rest => do
    let h ← twoDig a b
    match rest with
    | [] => pure (h, 0, 0, 0)
    | ':' :: c :: d :: rest2 => do
      let m ← twoDig c d
      match rest2 with
      | [] => pure (h, m, 0, 0)
      | ':' :: e :: f :: rest3 => do
        let s ← twoDig e f
        match rest3 with
        | [] => pure (h, m, s, 0)
        | '.' :: frac => do
          let us ← parseFrac frac
          pure (h, m, s, us)
        | _ => none
      | _ => none
    | _ => none
  | _ => none

/-- Split the time string at the first `+` or `-`, which starts the UTC
offset; the boolean records a negative sign. -/
def splitTZ : List Char → List Char × Option (Bool × List Char)
  | [] => ([], none)
  | c :: rest =>
    if c = '+' then ([], some (false, rest))
    else if c = '-' then ([], some (true, rest))
    else
      let p := splitTZ rest
      (c :: p.1, p.2)

/-- Time-of-day with optional offset.  The offset body must look like
`HH:MM`, `HH:MM:SS` or `HH:MM:SS.ffffff` (5, 8 or 15 characters) and the
resulting offset must be strictly less than 24 hours in magnitude, as
required by `datetime.timezone`. -/
def parseTime (tstr : List Char) : Option (Nat × Nat × Nat × Nat × Option Int) := do
  let sp := splitTZ tstr
  let (h, m, s, us) ← parseHMSF sp.1
  match sp.2 with
  | none => pure (h, m, s, us, none)
  | some (neg, body) =>
    if body.length = 5 ∨ body.length = 8 ∨ body.length = 15 then do
      let (th, tm, ts, tus) ← parseHMSF body
      let raw : Int := (((th * 3600 + tm * 60 + ts) * 1000000 + tus : Nat) : Int)
      if raw < 86400000000 then
        pure (h, m, s, us, some (if neg then -raw else raw))
      else none
    else none

/-- Range validation performed by the `datetime` constructor. -/
def mkDT (y mo dy h mi s us : Nat) (tz : Option Int) : Option DT :=
  if 1 ≤ y ∧ y ≤ 9999 ∧ 1 ≤ mo ∧ mo ≤ 12 ∧ 1 ≤ dy ∧ dy ≤ daysInMonth y mo
      ∧ h ≤ 23 ∧ mi ≤ 59 ∧ s ≤ 59 ∧ us ≤ 999999 then
    some ⟨y, mo, dy, h, mi, s, us, tz⟩
  else none

/-- `datetime.fromisoformat` (CPython pre-3.11): `YYYY-MM-DD` optionally
followed by one separator character (which is ignored) and a time string.
A string of exactly length 10 is a bare date; a separator with an empty
time string is rejected. -/
def fromisoformat (cs : List Char) : Option DT :=
  match cs with
  | y1 :: y2 :: y3 :: y4 :: '-' :: m1 :: m2 :: '-' :: d1 :: d2 :: rest => do
    let a ← digVal y1
    let b ← digVal y2
    let c ← digVal y3
    let d ← digVal y4
    let y := 1000 * a + 100 * b + 10 * c + d
    let mo ← twoDig m1 m2
    let dy ← twoDig d1 d2
    match rest with
    | [] => mkDT y mo dy 0 0 0 0 none
    | _ :: tstr => do
      let (h, mi, s, us, tz) ← parseTime tstr
      mkDT y mo dy h mi s us tz
  | _ => none

/-- `timestamp.replace("Z", "+00:00")` from the source: every occurrence
of the single character `Z` is expanded. -/
def replaceZ : List Char → List Char
  | [] => []
  | c :: rest =>
    if c = 'Z' then '+' :: '0' :: '0' :: ':' :: '0' :: '0' :: replaceZ rest
    else c :: replaceZ rest

/-- Decimal rendering of `n`, left-padded with zeros to width `w`. -/
def padNat (w n : Nat) : String :=
  ⟨List.replicate (w - (Nat.repr n).length) '0' ++ (Nat.repr n).data⟩

/-- `dt.strftime("%Y-%m-%d")`: the datetime's own calendar fields,
zero-padded.  No timezone conversion is performed by `strftime`. -/
def fmtDate (y m d : Nat) : String :=
  padNat 4 y ++ "-" ++ padNat 2 m ++ "-" ++ padNat 2 d

/-- The date test of `filter_by_date` on one timestamp string: replace
`Z`, parse, format the parsed datetime's own date and compare with the
filter date.  `none` from the parser is the caught `ValueError`. -/
def tsKeep (dateFilter s : String) : Bool :=
  match fromisoformat (replaceZ s.data) with
  | some dt => decide (fmtDate dt.year dt.month dt.day = dateFilter)
  | none => false

/-- The loop of `filter_by_date`: `filtered` is the accumulator; a record
whose `@timestamp` is falsy, of a non-string type (the caught
`AttributeError` from `.replace`), or unparseable is skipped.  A record
that is not a dict raises `AttributeError` at `entry.get`, outside the
`try`. -/
def filterLoop (d : String) (acc : List JVal) : List JVal → Except PyErr (List JVal)
  | [] => .ok acc
  | e :: es =>
    match e with
    | .obj kvs =>
      let ts := (jlookup kvs "@timestamp").getD (.str "")
      if ts.truthy then
        match ts with
        | .str s =>
          if tsKeep d s then filterLoop d (acc ++ [e]) es
          else filterLoop d acc es
        | _ => filterLoop d acc es
      else filterLoop d acc es
    | _ => .error .attributeError

/-- `filter_by_date` from the source. -/
def filter_by_date (entries : List JVal) (d : String) : Except PyErr (List JVal) :=
  filterLoop d [] entries

/-- The predicate actually implemented by `filter_by_date`: the record is
kept iff its `@timestamp` is a non-empty string that parses and whose own
wall-clock calendar date (no UTC normalization) formats to the target. -/
def keepEntry (d : String) (e : JVal) : Bool :=
  match e with
  | .obj kvs =>
    match jlookup kvs "@timestamp" with
    | some (.str s) => decide (s ≠ "") && tsKeep d s
    | _ => false
  | _ => false

/-! ### The specified (UTC-normalizing) date filter -/

/-- Days since 1970-01-01 of a civil date (Howard Hinnant's algorithm). -/
def daysFromCivil (y m d : Int) : Int :=
  let y2 := if m ≤ 2 then y - 1 else y
  let era := Int.fdiv y2 400
  let yoe := y2 - era * 400
  let mp := Int.emod (m + 9) 12
  let doy := Int.fdiv (153 * mp + 2) 5 + d - 1
  let doe := yoe * 365 + Int.fdiv yoe 4 - Int.fdiv yoe 100 + doy
  era * 146097 + doe - 719468

/-- Civil date from days since 1970-01-01 (inverse of `daysFromCivil`). -/
def civilFromDays (z0 : Int) : Int × Int × Int :=
  let z := z0 + 719468
  let era := Int.fdiv z 146097
  let doe := z - era * 146097
  let yoe := Int.fdiv (doe - Int.fdiv doe 1460 + Int.fdiv doe 36524 - Int.fdiv doe 146096) 365
  let y := yoe + era * 400
  let doy := doe - (365 * yoe + Int.fdiv yoe 4 - Int.fdiv yoe 100)
  let mp := Int.fdiv (5 * doy + 2) 153
  let d := doy - Int.fdiv (153 * mp + 2) 5 + 1
  let m := mp + (if mp < 10 then 3 else -9)
  (if m ≤ 2 then y + 1 else y, m, d)

/-- The calendar date of a parsed timestamp after normalizing to UTC: an
aware datetime has its offset subtracted before the date is read off; a
naive one is taken as is. -/
def utcDate (dt : DT) : String :=
  match dt.tzUs with
  | none => fmtDate dt.year dt.month dt.day
  | some off =>
    let ts : Int :=
      (daysFromCivil dt.year dt.month dt.day * 86400
          + ((dt.hour * 3600 + dt.minute * 60 + dt.second : Nat) : Int)) * 1000000
        + (dt.micro : Int) - off
    let c := civilFromDays (Int.fdiv ts 86400000000)
    fmtDate c.1.toNat c.2.1.toNat c.2.2.toNat

/-- The date-filter membership test as the spec words it, for comparison
with `keepEntry`: same parsing, but the comparison uses the
UTC-normalized calendar date. -/
def keepEntrySpec (d : String) (e : JVal) : Bool :=
  match e with
  | .obj kvs =>
    match jlookup kvs "@timestamp" with
    | some (.str s) =>
      (match fromisoformat (replaceZ s.data) with
       | some dt => decide (utcDate dt = d)
       | none => false)
    | _ => false
  | _ => false

/-- The date filter as the spec words it: the subsequence of records
whose timestamp parses and whose UTC-normalized date equals the target. -/
def filter_by_date_spec (entries : List JVal) (d : String) : List JVal :=
  entries.filter (keepEntrySpec d)

/-! ### Aggregation (`generate_average_report`) -/

/-- The per-endpoint statistics dictionary: `defaultdict` of
`count`/`total_time`, in insertion order. -/
abbrev Stats := List (String × Nat × Rat)

/-- `url.split("?")[0]`: the part of the url before the first `?`. -/
def stripQuery (s : String) : String :=
  ⟨s.data.takeWhile (fun c => c != '?')⟩

/-- The values Python can add to a float without a `TypeError`: numbers,
with `bool` an integer subtype (`True` counts as `1`). -/
def jnum? : JVal → Option Rat
  | .num q => some q
  | .bool b => some (if b then 1 else 0)
  | _ => none

/-- `stats[endpoint]["count"] += 1; stats[endpoint]["total_time"] += rt`
on the `defaultdict`: update in place, or append a fresh entry. -/
def bump : Stats → String → Rat → Stats
  | [], ep, q => [(ep, 1, q)]
  | kv :: rest, ep, q =>
    if kv.1 = ep then (kv.1, kv.2.1 + 1, kv.2.2 + q) :: rest
    else kv :: bump rest ep q

/-- One iteration of the aggregation loop.  A record that is not a dict
raises `AttributeError` at `entry.get`; a truthy non-string `url` raises
`AttributeError` at `.split`; a present non-numeric `response_time`
raises `TypeError` at `+=`.  None of these is caught. -/
def aggStep (stats : Stats) (e : JVal) : Except PyErr Stats :=
  match e with
  | .obj kvs =>
    let url := (jlookup kvs "url").getD (.str "")
    if url.truthy then
      match url with
      | .str u =>
        let rt := (jlookup kvs "response_time").getD (.num 0)
        match jnum? rt with
        | some q => .ok (bump stats (stripQuery u) q)
        | none => .error .typeError
      | _ => .error .attributeError
    else .ok stats
  | _ => .error .attributeError

/-- The aggregation loop of `generate_average_report`. -/
def aggLoop (stats : Stats) : List JVal → Except PyErr Stats
  | [] => .ok stats
  | e :: es =>
    match aggStep stats e with
    | .ok s2 => aggLoop s2 es
    | .error err => .error err

/-- The endpoint-statistics mapping built from the record list. -/
def aggregate (entries : List JVal) : Except PyErr Stats :=
  aggLoop [] entries

/-- Floor of a rational, then round-half-to-even: the correct rounding
used when CPython formats a float with a fixed number of decimals. -/
def rhe (q : Rat) : Int :=
  let f := ⌊q⌋
  if q - f < 1 / 2 then f
  else if (1 : Rat) / 2 < q - f then f + 1
  else if f % 2 = 0 then f else f + 1

/-- `f"{x:.3f}"` for a non-negative value. -/
def format3abs (q : Rat) : String :=
  let n := (rhe (q * 1000)).toNat
  Nat.repr (n / 1000) ++ "." ++ padNat 3 (n % 1000)

/-- `f"{x:.3f}"`: three decimal places, correctly rounded. -/
def format3 (q : Rat) : String :=
  if q < 0 then "-" ++ format3abs (-q) else format3abs q

/-- A rendered row before ranking: endpoint, count, formatted average. -/
abbrev Row := String × Nat × String

/-- Construction of `table_data`: `avg_time = total_time / count if
count > 0 else 0`, then the 3-decimal format. -/
def tableOf (stats : Stats) : List Row :=
  stats.map (fun kv =>
    (kv.1, kv.2.1, format3 (if 0 < kv.2.1 then kv.2.2 / (kv.2.1 : Rat) else 0)))

/-- Stable insertion for the descending-by-count sort: a row moves past
exactly the rows with strictly greater count, so rows with equal counts
keep their relative order.  This is the output contract of Python's
stable `list.sort(key=lambda x: x[1], reverse=True)`. -/
def insDesc (x : Row) : List Row → List Row
  | [] => [x]
  | y :: ys => if x.2.1 < y.2.1 then y :: insDesc x ys else x :: y :: ys

/-- Stable sort of the table rows by count, descending. -/
def sortDesc : List Row → List Row
  | [] => []
  | x :: xs => insDesc x (sortDesc xs)

/-- `enumerate(table_data)` starting at `i`. -/
def enumFromN (i : Nat) : List Row → List (Nat × Row)
  | [] => []
  | r :: rs => (i, r) :: enumFromN (i + 1) rs

/-- `[[i] + row for i, row in enumerate(table_data)]`: 0-based ranks. -/
def rankRows (rows : List Row) : List (Nat × Row) :=
  enumFromN 0 rows

/-- What `generate_average_report` hands to the renderer: one of the two
literal strings, or the ranked rows passed to `tabulate`. -/
inductive Report where
  | noEntries : Report
  | noEndpoints : Report
  | table : List (Nat × Row) → Report
deriving DecidableEq

/-- `generate_average_report` from the source. -/
def generate_average_report (entries : List JVal) : Except PyErr Report :=
  if entries.isEmpty then .ok .noEntries
  else
    match aggregate entries with
    | .error e => .error e
    | .ok stats =>
      if stats.isEmpty then .ok .noEndpoints
      else .ok (.table (rankRows (sortDesc (tableOf stats))))

/-! ### Spec-level views of the aggregation -/

/-- Whether a record contributes to the endpoint `ep`: its `url` is a
non-empty string whose query-stripped form is `ep`. -/
def contributesTo (ep : String) (e : JVal) : Bool :=
  match e with
  | .obj kvs =>
    match jlookup kvs "url" with
    | some (.str s) => decide (s ≠ "") && decide (stripQuery s = ep)
    | _ => false
  | _ => false

/-- The response time a record contributes: its numeric `response_time`,
or `0.0` when the field is absent. -/
def rtValue (e : JVal) : Rat :=
  match e with
  | .obj kvs => (jnum? ((jlookup kvs "response_time").getD (.num 0))).getD 0
  | _ => 0

/-- First lookup in the statistics mapping (keys are unique). -/
def statsFind : Stats → String → Option (Nat × Rat)
  | [], _ => none
  | kv :: rest, ep => if kv.1 = ep then some kv.2 else statsFind rest ep

/-- Records counted toward `ep` in `es`. -/
def cntOf (ep : String) (es : List JVal) : Nat :=
  (es.filter (contributesTo ep)).length

/-- Total response time accumulated for `ep` over `es`. -/
def sumOf (ep : String) (es : List JVal) : Rat :=
  ((es.filter (contributesTo ep)).map rtValue).sum

/-- The well-typedness precondition of the aggregator: a dict whose
`url`, when present and truthy, is a string, and whose `response_time`,
when present in such a record, is a number. -/
def wellTyped (e : JVal) : Bool :=
  match e with
  | .obj kvs =>
    match jlookup kvs "url" with
    | some v =>
      if v.truthy then
        match v with
        | .str _ =>
          (match jlookup kvs "response_time" with
           | some (.num _) => true
           | none => true
           | some _ => false)
        | _ => false
      else true
    | none => true
  | _ => false

/-! ### Record ingestion (`read_log_files`) -/

/-- A log source as the ingestor can observe it: absent (`path.exists()`
false), unopenable (`IOError`/`OSError` at `open`), or a readable file
with its physical lines. -/
inductive Source where
  | missing : Source
  | unreadable : Source
  | content : List String → Source

/-- The warnings the ingestor prints. -/
inductive Warn where
  | missingFile : String → Warn
  | readError : String → Warn
  | invalidJson : String → Nat → Warn
deriving DecidableEq

/-- Python `str.strip()` whitespace (ASCII). -/
def pyWS (c : Char) : Bool :=
  c = ' ' || c = Char.ofNat 9 || c = Char.ofNat 10 || c = Char.ofNat 13
    || c = Char.ofNat 11 || c = Char.ofNat 12

/-- `line.strip()`. -/
def pyStrip (s : String) : String :=
  ⟨((s.data.dropWhile pyWS).reverse.dropWhile pyWS).reverse⟩

/-- The per-file loop of `read_log_files`: `enumerate(f, 1)` numbering,
blank lines skipped, decodable lines appended, undecodable lines warned
about and skipped.  `decode` abstracts `json.loads` (`none` is a
`json.JSONDecodeError`). -/
def fileLoop (decode : String → Option JVal) (name : String) :
    Nat → List JVal × List Warn → List String → List JVal × List Warn
  | _, acc, [] => acc
  | i, acc, l :: ls =>
    let t := pyStrip l
    if t = "" then fileLoop decode name (i + 1) acc ls
    else
      match decode t with
      | some e => fileLoop decode name (i + 1) (acc.1 ++ [e], acc.2) ls
      | none => fileLoop decode name (i + 1) (acc.1, acc.2 ++ [.invalidJson name i]) ls

/-- The per-source loop of `read_log_files`: a missing or unreadable
source only contributes a warning. -/
def filesLoop (decode : String → Option JVal) :
    List JVal × List Warn → List (String × Source) → List JVal × List Warn
  | acc, [] => acc
  | acc, (name, .missing) :: fs =>
    filesLoop decode (acc.1, acc.2 ++ [.missingFile name]) fs
  | acc, (name, .unreadable) :: fs =>
    filesLoop decode (acc.1, acc.2 ++ [.readError name]) fs
  | acc, (name, .content lines) :: fs =>
    filesLoop decode (fileLoop decode name 1 acc lines) fs

/-- `read_log_files` from the source: the accumulated records and the
warnings printed along the way. -/
def read_log_files (decode : String → Option JVal) (files : List (String × Source)) :
    List JVal × List Warn :=
  filesLoop decode ([], []) files

/-- The decoded records of one readable file, in line order. -/
def decodedLines (decode : String → Option JVal) (lines : List String) : List JVal :=
  lines.filterMap (fun l => if pyStrip l = "" then none else decode (pyStrip l))

/-- The decode warnings of one readable file, with 1-based line numbers. -/
def lineWarns (decode : String → Option JVal) (name : String) :
    Nat → List String → List Warn
  | _, [] => []
  | i, l :: ls =>
    if pyStrip l = "" then lineWarns decode name (i + 1) ls
    else
      match decode (pyStrip l) with
      | some _ => lineWarns decode name (i + 1) ls
      | none => .invalidJson name i :: lineWarns decode name (i + 1) ls

/-- Records contributed by one source. -/
def fileRecords (decode : String → Option JVal) : String × Source → List JVal
  | (_, .content lines) => decodedLines decode lines
  | _ => []

/-- Warnings contributed by one source. -/
def fileWarns (decode : String → Option JVal) : String × Source → List Warn
  | (name, .missing) => [.missingFile name]
  | (name, .unreadable) => [.readError name]
  | (name, .content lines) => lineWarns decode name 1 lines

/-! ### The CLI driver (`main`) -/

/-- `strptime`'s `%m` pattern (regex `1[0-2]|0[1-9]|[1-9]`, alternatives
in order). -/
def pMonth : List Char → Option (Nat × List Char)
  | '1' :: c :: rest =>
    if '0' ≤ c ∧ c ≤ '2' then some (10 + (c.toNat - 48), rest)
    else some (1, c :: rest)
  | ['1'] => some (1, [])
  | '0' :: c :: rest =>
    if '1' ≤ c ∧ c ≤ '9' then some (c.toNat - 48, rest) else none
  | c :: rest =>
    if '2' ≤ c ∧ c ≤ '9' then some (c.toNat - 48, rest) else none
  | [] => none

/-- `strptime`'s `%d` pattern (regex `3[01]|[12]\d|0[1-9]|[1-9]`). -/
def pDay : List Char → Option (Nat × List Char)
  | '3' :: c :: rest =>
    if c = '0' ∨ c = '1' then some (30 + (c.toNat - 48), rest)
    else some (3, c :: rest)
  | ['3'] => some (3, [])
  | '0' :: c :: rest =>
    if '1' ≤ c ∧ c ≤ '9' then some (c.toNat - 48, rest) else none
  | c1 :: c2 :: rest =>
    if (c1 = '1' ∨ c1 = '2') ∧ c2.isDigit then
      some (10 * (c1.toNat - 48) + (c2.toNat - 48), rest)
    else if '1' ≤ c1 ∧ c1 ≤ '9' then some (c1.toNat - 48, c2 :: rest)
    else none
  | [c] => if '1' ≤ c ∧ c ≤ '9' then some (c.toNat - 48, []) else none
  | [] => none

/-- `datetime.strptime(s, "%Y-%m-%d")` succeeding: a 4-digit year, the
month and day patterns, the whole string consumed, and the resulting
date accepted by the `datetime` constructor. -/
def strptimeYMD (s : String) : Bool :=
  match s.data with
  | y1 :: y2 :: y3 :: y4 :: '-' :: rest =>
    match digVal y1, digVal y2, digVal y3, digVal y4 with
    | some a, some b, some c, some d =>
      let y := 1000 * a + 100 * b + 10 * c + d
      (match pMonth rest with
       | some (mo, '-' :: rest2) =>
         (match pDay rest2 with
          | some (dy, []) =>
            decide (1 ≤ y) && decide (1 ≤ dy) && decide (dy ≤ daysInMonth y mo)
          | _ => false)
       | _ => false)
    | _, _, _, _ => false
  | _ => false

/-- The parsed command line: `--file` sources (with their observable
filesystem state), `--report`, optional `--date`. -/
structure Args where
  file : List (String × Source)
  report : String
  date : Option String

/-- Everything `main` prints to stdout, as events. -/
inductive Msg where
  | warn : Warn → Msg
  | invalidDate : String → Msg
  | noValidEntries : Msg
  | noEntriesForDate : String → Msg
  | report : Report → Msg
  | unknownReport : String → Msg
deriving DecidableEq

/-- How the process ends: `sys.exit`/normal return with a code, or an
uncaught exception (traceback). -/
inductive Outcome where
  | exited : Nat → Outcome
  | crashed : PyErr → Outcome
deriving DecidableEq

/-- Observable result of a `main` run; `reportArg` records the entries
list passed to `generate_average_report`, when the call is reached. -/
structure MainRes where
  outcome : Outcome
  msgs : List Msg
  reportArg : Option (List JVal)

/-- The report-dispatch tail of `main`. -/
def reportStage (args : Args) (base : List Msg) (entries : List JVal) : MainRes :=
  if args.report = "average" then
    match generate_average_report entries with
    | .ok r => ⟨.exited 0, base ++ [.report r], some entries⟩
    | .error e => ⟨.crashed e, base, some entries⟩
  else ⟨.exited 1, base ++ [.unknownReport args.report], none⟩

/-- `main` after date validation: ingest, fail on zero records, apply the
optional date filter (exit 0 when it empties the list), then dispatch. -/
def mainIngest (decode : String → Option JVal) (args : Args) (dOpt : Option String) :
    MainRes :=
  let res := read_log_files decode args.file
  let base := res.2.map Msg.warn
  if res.1.isEmpty then ⟨.exited 1, base ++ [.noValidEntries], none⟩
  else
    match dOpt with
    | some d =>
      (match filter_by_date res.1 d with
       | .error e => ⟨.crashed e, base, none⟩
       | .ok fs =>
         if fs.isEmpty then ⟨.exited 0, base ++ [.noEntriesForDate d], none⟩
         else reportStage args base fs)
    | none => reportStage args base res.1

/-- `main` from the source.  `if args.date:` is a truthiness test, so an
empty `--date` string behaves like no date at all. -/
def mainRun (decode : String → Option JVal) (args : Args) : MainRes :=
  match args.date with
  | some d =>
    if d ≠ "" then
      (if strptimeYMD d then mainIngest decode args (some d)
       else ⟨.exited 1, [.invalidDate d], none⟩)
    else mainIngest decode args none
  | none => mainIngest decode args none

/-- The record list that reaches the report stage, if `main` gets there
without crashing: the ingested records, filtered when a date is active. -/
def postFilter (decode : String → Option JVal) (args : Args) : Option (List JVal) :=
  let entries := (read_log_files decode args.file).1
  match args.date with
  | some d =>
    if d ≠ "" then
      (match filter_by_date entries d with
       | .ok fs => some fs
       | .error _ => none)
    else some entries
  | none => some entries

/-- Every active `--date` value is valid. -/
def dateOk (args : Args) : Prop :=
  ∀ d, args.date = some d → d ≠ "" → strptimeYMD d = true

/-! ### Concrete inputs used in witnesses and counterexamples -/

/-- Record dated 2025-06-22 (UTC offset), as in the spec's filter example. -/
def rec1 : JVal :=
  .obj [("@timestamp", .str "2025-06-22T20:03:08+00:00"), ("url", .str "/api/test1")]

/-- Record dated 2025-06-23. -/
def rec2 : JVal :=
  .obj [("@timestamp", .str "2025-06-23T20:03:08+00:00"), ("url", .str "/api/test2")]

/-- Second record dated 2025-06-22. -/
def rec3 : JVal :=
  .obj [("@timestamp", .str "2025-06-22T10:00:00+00:00"), ("url", .str "/api/test3")]

/-- Record with an unparseable timestamp. -/
def rec4 : JVal :=
  .obj [("@timestamp", .str "invalid"), ("url", .str "/api/test4")]

/-- The spec's date-filter example list. -/
def entsC1 : List JVal := [rec1, rec2, rec3, rec4]

/-- A record whose own-offset date (2025-06-22) differs from its
UTC-normalized date (2025-06-23). -/
def cexC1 : JVal := .obj [("@timestamp", .str "2025-06-22T23:30:00-05:00")]

/-- A record with a present but non-numeric `response_time`. -/
def badRT : JVal := .obj [("url", .str "/a"), ("response_time", .str "x")]

/-- Records with response times 0.1 and 0.2 on one endpoint. -/
def recT1 : JVal := .obj [("url", .str "/api/test"), ("response_time", .num (1 / 10))]

/-- Second record on the same endpoint, response time 0.2. -/
def recT2 : JVal := .obj [("url", .str "/api/test"), ("response_time", .num (1 / 5))]

/-- The spec's average example list. -/
def entsC8 : List JVal := [recT1, recT2]

/-- Endpoint seen once, first. -/
def recRare : JVal := .obj [("url", .str "/api/rare"), ("response_time", .num (1 / 10))]

/-- Endpoint seen three times. -/
def recCommon : JVal := .obj [("url", .str "/api/common"), ("response_time", .num (1 / 10))]

/-- Endpoint seen once, last. -/
def recOther : JVal := .obj [("url", .str "/api/other"), ("response_time", .num (1 / 10))]

/-- The spec's sorting example: counts 1, 3, 1 in discovery order. -/
def entsC3 : List JVal := [recRare, recCommon, recCommon, recCommon, recOther]

/-- A record with a query string in its url. -/
def recQ1 : JVal := .obj [("url", .str "/api/test?param=1"), ("response_time", .num (1 / 10))]

/-- A log line holding one record with a timestamp and a url. -/
def lineA : String :=
  "\x7b\"@timestamp\": \"2025-06-22T10:00:00+00:00\", \"url\": \"/a\"\x7d"

/-- `json.loads` of `lineA`. -/
def recA : JVal :=
  .obj [("@timestamp", .str "2025-06-22T10:00:00+00:00"), ("url", .str "/a")]

/-- A log line holding one record with no `url`. -/
def lineB : String := "\x7b\"response_time\": 1\x7d"

/-- `json.loads` of `lineB`. -/
def recB : JVal := .obj [("response_time", .num 1)]

/-- A concrete decoder agreeing with `json.loads` on the two lines the
examples use, failing on everything else. -/
def exampleDecode (s : String) : Option JVal :=
  if s = lineA then some recA
  else if s = lineB then some recB
  else none

/-- Unrecognized report together with a date that filters out the only
record. -/
def argsCex7 : Args := ⟨[("a.log", .content [lineA])], "totals", some "2025-06-23"⟩

/-- A malformed `--date`. -/
def argsBadDate : Args := ⟨[("a.log", .content [lineA])], "average", some "2025-13-01"⟩

/-- A source with no records. -/
def argsNoRecords : Args := ⟨[("a.log", .content [])], "average", none⟩

/-- Unrecognized report with a surviving record. -/
def argsBadReport : Args := ⟨[("a.log", .content [lineA])], "totals", none⟩

/-- Records present but none with a `url`. -/
def argsNoUrl : Args := ⟨[("b.log", .content [lineB])], "average", none⟩

/-- A plain successful run. -/
def argsAvg : Args := ⟨[("a.log", .content [lineA])], "average", none⟩

/-- The ranked rows the report produces for `entsC3`. -/
def rowsC3 : List (Nat × Row) :=
  [(0, ("/api/common", 3, "0.100")), (1, ("/api/rare", 1, "0.100")),
   (2, ("/api/other", 1, "0.100"))]

/-- The ranked rows the report produces for `entsC8`. -/
def rowsC8 : List (Nat × Row) := [(0, ("/api/test", 2, "0.150"))]

/-! ## Theorems -/

theorem fileLoop_eq (decode : String → Option JVal) (name : String)
    (lines : List String) : ∀ (i : Nat) (acc : List JVal × List Warn),
    fileLoop decode name i acc lines =
      (acc.1 ++ decodedLines decode lines, acc.2 ++ lineWarns decode name i lines) := by
  induction lines with
  | nil => intro i acc; simp [fileLoop, decodedLines, lineWarns]
  | cons l ls ih =>
    intro i acc
    by_cases h : pyStrip l = ""
    · simp [fileLoop, decodedLines, lineWarns, List.filterMap_cons, h, ih]
    · rcases hd : decode (pyStrip l) with _ | e
      · simp [fileLoop, decodedLines, lineWarns, List.filterMap_cons, h, hd, ih]
      · simp [fileLoop, decodedLines, lineWarns, List.filterMap_cons, h, hd, ih]

theorem filesLoop_eq (decode : String → Option JVal)
    (files : List (String × Source)) : ∀ (acc : List JVal × List Warn),
    filesLoop decode acc files =
      (acc.1 ++ (files.map (fileRecords decode)).flatten,
       acc.2 ++ (files.map (fileWarns decode)).flatten) := by
  induction files with
  | nil => intro acc; simp [filesLoop]
  | cons f fs ih =>
    intro acc
    rcases f with ⟨name, src⟩
    cases src with
    | missing => simp [filesLoop, fileRecords, fileWarns, ih]
    | unreadable => simp [filesLoop, fileRecords, fileWarns, ih]
    | content lines =>
      simp [filesLoop, fileRecords, fileWarns, ih, fileLoop_eq]

/-- C4.  `read_log_files` returns exactly the concatenation, in source
order and then line order, of the successfully decoded non-blank lines of
the readable sources; a missing or unopenable source contributes no
records and one warning, and each non-blank line that fails to decode
contributes one warning with its 1-based line number, aborting nothing. -/
theorem read_log_files_spec (decode : String → Option JVal)
    (files : List (String × Source)) :
    read_log_files decode files =
      ((files.map (fileRecords decode)).flatten,
       (files.map (fileWarns decode)).flatten) := by
  simpa [read_log_files] using filesLoop_eq decode files ([], [])

theorem filterLoop_eq (d : String) (es : List JVal) : ∀ (acc : List JVal),
    (∀ e ∈ es, e.isObj = true) →
    filterLoop d acc es = .ok (acc ++ es.filter (keepEntry d)) := by
  induction es with
  | nil => intro acc _; simp [filterLoop]
  | cons e es ih =>
    intro acc h
    have he : e.isObj = true := h e (by simp)
    have hes : ∀ x ∈ es, x.isObj = true := fun x hx => h x (by simp [hx])
    cases e with
    | obj kvs =>
      rcases hv : jlookup kvs "@timestamp" with _ | v
      · simp [filterLoop, keepEntry, hv, JVal.truthy, List.filter_cons, ih _ hes]
      · cases v with
        | str s =>
          by_cases hs : s = ""
          · simp [filterLoop, keepEntry, hv, hs, JVal.truthy, List.filter_cons, ih _ hes]
          · by_cases hk : tsKeep d s
            · simp [filterLoop, keepEntry, hv, hs, hk, JVal.truthy, List.filter_cons,
                ih _ hes]
            · simp [filterLoop, keepEntry, hv, hs, hk, JVal.truthy, List.filter_cons,
                ih _ hes]
        | null => simp [filterLoop, keepEntry, hv, JVal.truthy, List.filter_cons, ih _ hes]
        | bool b =>
          cases b <;>
            simp [filterLoop, keepEntry, hv, JVal.truthy, List.filter_cons, ih _ hes]
        | num q =>
          by_cases hq : q = 0 <;>
            simp [filterLoop, keepEntry, hv, hq, JVal.truthy, List.filter_cons, ih _ hes]
        | arr xs =>
          cases xs <;>
            simp [filterLoop, keepEntry, hv, JVal.truthy, List.filter_cons, ih _ hes]
        | obj kvs2 =>
          cases kvs2 <;>
            simp [filterLoop, keepEntry, hv, JVal.truthy, List.filter_cons, ih _ hes]
    | null => simp [JVal.isObj] at he
    | bool b => simp [JVal.isObj] at he
    | num q => simp [JVal.isObj] at he
    | str s => simp [JVal.isObj] at he
    | arr xs => simp [JVal.isObj] at he

/-- C1 (amended).  On a sequence of records (dicts), `filter_by_date`
returns exactly the subsequence, in original order, of records whose
`@timestamp` is a non-empty string that parses as an ISO-8601 datetime (a
trailing `Z` read as `+00:00`) and whose calendar date *as written in the
timestamp's own offset* — no UTC normalization is performed — formats to
the target date; a record missing the field or failing to parse is
silently excluded. -/
theorem spec_c1 (entries : List JVal) (d : String)
    (h : ∀ e ∈ entries, e.isObj = true) :
    filter_by_date entries d = .ok (entries.filter (keepEntry d)) := by
  simpa [filter_by_date] using filterLoop_eq d entries [] h

/-- Witness for C1: the spec's example — two records on 2025-06-22, one
on 2025-06-23, one unparseable — filtered by 2025-06-22. -/
theorem spec_c1_witness :
    (∀ e ∈ entsC1, e.isObj = true) ∧
    filter_by_date entsC1 "2025-06-22" = .ok (entsC1.filter (keepEntry "2025-06-22")) :=
  ⟨by decide, spec_c1 entsC1 "2025-06-22" (by decide)⟩

/-- Counterexample to C1 as stated: a record at 23:30 in offset `-05:00`
on 2025-06-22 falls on 2025-06-23 after UTC normalization, yet the code
excludes it when filtering by 2025-06-23, while the spec's UTC-normalized
filter keeps it. -/
theorem spec_c1_cex :
    filter_by_date [cexC1] "2025-06-23" = .ok [] ∧
    filter_by_date_spec [cexC1] "2025-06-23" = [cexC1] := by
  constructor
  · rfl
  · rfl

theorem statsFind_bump (stats : Stats) (ep ep' : String) (q : Rat) :
    statsFind (bump stats ep q) ep' =
      if ep' = ep then
        (match statsFind stats ep with
         | some ct => some (ct.1 + 1, ct.2 + q)
         | none => some (1, q))
      else statsFind stats ep' := by
  induction stats with
  | nil =>
    by_cases h : ep' = ep
    · simp [bump, statsFind, h]
    · have h2 : ¬ ep = ep' := fun hc => h hc.symm
      simp [bump, statsFind, h, h2]
  | cons kv rest ih =>
    by_cases hk : kv.1 = ep
    · by_cases h' : ep' = ep
      · simp [bump, statsFind, hk, h', hk.trans h'.symm]
      · have h2 : ¬ kv.1 = ep' := fun hc => h' (hc.symm.trans hk)
        have h3 : ¬ ep = ep' := fun hc => h' hc.symm
        simp [bump, statsFind, hk, h', h2, h3]
    · by_cases h' : kv.1 = ep'
      · have h2 : ¬ ep' = ep := fun hc => hk (h'.trans hc)
        simp [bump, statsFind, hk, h', h2]
      · simp [bump, statsFind, hk, h', ih]

/-- C2 (amended).  A contributing record (one whose `url` is a truthy
string) bumps its endpoint: the count rises by exactly 1 and the
`response_time` is added to `total_time`, with `0.0` used when the field
is absent; but a *present* non-numeric `response_time` raises an uncaught
`TypeError` instead of being replaced by `0.0`. -/
theorem spec_c2 :
    (∀ (stats : Stats) (kvs : List (String × JVal)) (u : String),
      jlookup kvs "url" = some (.str u) → u ≠ "" →
        ((jlookup kvs "response_time" = none →
            aggStep stats (.obj kvs) = .ok (bump stats (stripQuery u) 0))
        ∧ (∀ q : Rat, jlookup kvs "response_time" = some (.num q) →
            aggStep stats (.obj kvs) = .ok (bump stats (stripQuery u) q))
        ∧ (∀ v, jlookup kvs "response_time" = some v → jnum? v = none →
            aggStep stats (.obj kvs) = .error .typeError)))
    ∧ (∀ (stats : Stats) (ep : String) (q : Rat),
        statsFind (bump stats ep q) ep =
          match statsFind stats ep with
          | some ct => some (ct.1 + 1, ct.2 + q)
          | none => some (1, q)) := by
  constructor
  · intro stats kvs u hv hu
    refine ⟨?_, ?_, ?_⟩
    · intro hrt
      simp [aggStep, hv, hrt, JVal.truthy, hu, jnum?]
    · intro q hrt
      simp [aggStep, hv, hrt, JVal.truthy, hu, jnum?]
    · intro v hrt hn
      simp [aggStep, hv, hrt, JVal.truthy, hu, hn]
  · intro stats ep q
    simpa using statsFind_bump stats ep ep q

/-- Witness for C2: one record with url `/api/test` and response time
0.1, stepped into an empty mapping. -/
theorem spec_c2_witness :
    aggStep [] (.obj [("url", .str "/api/test"), ("response_time", .num (1 / 10))])
        = .ok (bump [] (stripQuery "/api/test") (1 / 10))
    ∧ statsFind (bump [] "/api/test" (1 / 10)) "/api/test" = some (1, 1 / 10) :=
  ⟨(spec_c2.1 [] [("url", .str "/api/test"), ("response_time", .num (1 / 10))]
      "/api/test" rfl (by decide)).2.1 (1 / 10) rfl,
   spec_c2.2 [] "/api/test" (1 / 10)⟩

/-- Counterexample to C2 as stated: a present string `response_time` is
not replaced by `0.0` — the aggregation raises `TypeError`, so the claim
that the endpoint would be counted with total 0.0 fails. -/
theorem spec_c2_cex :
    aggregate [badRT] = .error .typeError
    ∧ aggregate [badRT] ≠ .ok [("/a", 1, 0)] := by
  constructor
  · rfl
  · intro h
    rw [show aggregate [badRT] = .error .typeError from rfl] at h
    exact Except.noConfusion h

theorem takeWhile_notQ_all (l : List Char) (h : '?' ∉ l) :
    l.takeWhile (fun c => c != '?') = l := by
  induction l with
  | nil => rfl
  | cons c cs ih =>
    have hc : c ≠ '?' := fun hc => h (hc ▸ List.mem_cons_self c cs)
    have hcs : '?' ∉ cs := fun hm => h (List.mem_cons_of_mem c hm)
    simp [List.takeWhile_cons, hc, ih hcs]

theorem takeWhile_notQ_split (l : List Char) (h : '?' ∈ l) :
    ∃ rest, l = l.takeWhile (fun c => c != '?') ++ '?' :: rest
      ∧ '?' ∉ l.takeWhile (fun c => c != '?') := by
  induction l with
  | nil => cases h
  | cons c cs ih =>
    by_cases hc : c = '?'
    · subst hc
      exact ⟨cs, by simp [List.takeWhile_cons], by simp [List.takeWhile_cons]⟩
    · have hm : '?' ∈ cs := by
        rcases List.mem_cons.mp h with h1 | h1
        · exact absurd h1.symm hc
        · exact h1
      rcases ih hm with ⟨rest, he, hn⟩
      refine ⟨rest, ?_, ?_⟩
      · simpa [List.takeWhile_cons, hc] using congrArg (c :: ·) he
      · simp [List.takeWhile_cons, hc, hn, Ne.symm hc]

theorem takeWhile_notQ_append (l r : List Char) :
    (l ++ '?' :: r).takeWhile (fun c => c != '?')
      = l.takeWhile (fun c => c != '?') := by
  induction l with
  | nil => simp [List.takeWhile_cons]
  | cons c cs ih =>
    by_cases hc : c = '?' <;> simp [List.takeWhile_cons, hc, ih]

/-- C5.  The aggregation key of a contributing record is the part of its
`url` before the first `?` (the whole url when there is no `?`); the
stripping is idempotent, urls differing only after the `?` share one
endpoint, and a record whose `url` is absent or empty contributes
nothing. -/
theorem spec_c5 :
    (∀ u : String,
      ('?' ∉ u.data → stripQuery u = u)
      ∧ ('?' ∈ u.data → ∃ rest, u.data = (stripQuery u).data ++ '?' :: rest
          ∧ '?' ∉ (stripQuery u).data))
    ∧ (∀ u : String, stripQuery (stripQuery u) = stripQuery u)
    ∧ (∀ p q1 q2 : String, stripQuery (p ++ "?" ++ q1) = stripQuery (p ++ "?" ++ q2))
    ∧ (∀ (stats : Stats) (kvs : List (String × JVal)),
        (jlookup kvs "url" = none ∨ jlookup kvs "url" = some (.str "")) →
        aggStep stats (.obj kvs) = .ok stats)
    ∧ (∀ (stats : Stats) (kvs : List (String × JVal)) (u : String) (q : Rat),
        jlookup kvs "url" = some (.str u) → u ≠ "" →
        jnum? ((jlookup kvs "response_time").getD (.num 0)) = some q →
        aggStep stats (.obj kvs) = .ok (bump stats (stripQuery u) q)) := by
  refine ⟨?_, ?_, ?_, ?_, ?_⟩
  · intro u
    constructor
    · intro h
      show (⟨u.data.takeWhile (fun c => c != '?')⟩ : String) = u
      rw [takeWhile_notQ_all u.data h]
    · intro h
      exact takeWhile_notQ_split u.data h
  · intro u
    show (⟨(u.data.takeWhile (fun c => c != '?')).takeWhile (fun c => c != '?')⟩ : String)
        = ⟨u.data.takeWhile (fun c => c != '?')⟩
    rw [takeWhile_notQ_all _ (fun hm => by
      have := List.mem_takeWhile_imp hm
      simp at this)]
  · intro p q1 q2
    show (⟨(p ++ "?" ++ q1).data.takeWhile (fun c => c != '?')⟩ : String)
        = ⟨(p ++ "?" ++ q2).data.takeWhile (fun c => c != '?')⟩
    have hd : ∀ q : String, (p ++ "?" ++ q).data = p.data ++ '?' :: q.data := by
      intro q
      cases p with
      | mk pd =>
        cases q with
        | mk qd => simp [String.data_append]
    rw [hd q1, hd q2, takeWhile_notQ_append, takeWhile_notQ_append]
  · intro stats kvs h
    rcases h with h | h <;> simp [aggStep, h, JVal.truthy]
  · intro stats kvs u q hv hu hq
    simp [aggStep, hv, JVal.truthy, hu, hq]

/-- Witness for C5: the spec's pair of urls differing only in the query
string, and an url-less record that contributes nothing. -/
theorem spec_c5_witness :
    stripQuery (stripQuery "/api/test?param=1") = stripQuery "/api/test?param=1"
    ∧ stripQuery ("/api/test" ++ "?" ++ "param=1")
        = stripQuery ("/api/test" ++ "?" ++ "param=2")
    ∧ aggStep [] (.obj [("response_time", .num 1)]) = .ok []
    ∧ aggStep [] (.obj [("url", .str "/api/test?param=1"), ("response_time", .num (1 / 10))])
        = .ok (bump [] (stripQuery "/api/test?param=1") (1 / 10)) :=
  ⟨spec_c5.2.1 "/api/test?param=1",
   spec_c5.2.2.1 "/api/test" "param=1" "param=2",
   spec_c5.2.2.2.1 [] [("response_time", .num 1)] (Or.inl rfl),
   spec_c5.2.2.2.2 [] [("url", .str "/api/test?param=1"), ("response_time", .num (1 / 10))]
     "/api/test?param=1" (1 / 10) rfl (by decide) rfl⟩

theorem aggStep_find (stats s1 : Stats) (e : JVal)
    (h : aggStep stats e = .ok s1) (ep : String) :
    statsFind s1 ep =
      if contributesTo ep e then
        (match statsFind stats ep with
         | some ct => some (ct.1 + 1, ct.2 + rtValue e)
         | none => some (1, rtValue e))
      else statsFind stats ep := by
  cases e with
  | obj kvs =>
    rcases hv : jlookup kvs "url" with _ | v
    · simp only [aggStep, hv, Option.getD_none, JVal.truthy, decide_not] at h
      simp at h
      simp [contributesTo, hv, ← h]
    · cases v with
      | str u =>
        by_cases hu : u = ""
        · subst hu
          simp only [aggStep, hv, Option.getD_some, JVal.truthy] at h
          simp at h
          simp [contributesTo, hv, ← h]
        · rcases hq : jnum? ((jlookup kvs "response_time").getD (.num 0)) with _ | q
          · simp only [aggStep, hv, Option.getD_some, JVal.truthy] at h
            simp [hu, hq] at h
          · simp only [aggStep, hv, Option.getD_some, JVal.truthy] at h
            simp [hu, hq] at h
            rw [← h, statsFind_bump]
            have hr : rtValue (.obj kvs) = q := by
              simp [rtValue, hq]
            by_cases hc : stripQuery u = ep
            · simp [contributesTo, hv, hu, hc, hr]
            · have hc2 : ¬ ep = stripQuery u := fun hh => hc hh.symm
              simp [contributesTo, hv, hu, hc, hc2, hr]
      | null =>
        simp only [aggStep, hv, Option.getD_some, JVal.truthy] at h
        simp at h
        simp [contributesTo, hv, ← h]
      | bool b =>
        cases b
        · simp only [aggStep, hv, Option.getD_some, JVal.truthy] at h
          simp at h
          simp [contributesTo, hv, ← h]
        · simp [aggStep, hv, JVal.truthy] at h
      | num q =>
        by_cases hq : q = 0
        · subst hq
          simp only [aggStep, hv, Option.getD_some, JVal.truthy] at h
          simp at h
          simp [contributesTo, hv, ← h]
        · simp [aggStep, hv, JVal.truthy, hq] at h
      | arr xs =>
        cases xs with
        | nil =>
          simp only [aggStep, hv, Option.getD_some, JVal.truthy, List.isEmpty_nil] at h
          simp at h
          simp [contributesTo, hv, ← h]
        | cons x xs => simp [aggStep, hv, JVal.truthy] at h
      | obj kvs2 =>
        cases kvs2 with
        | nil =>
          simp only [aggStep, hv, Option.getD_some, JVal.truthy, List.isEmpty_nil] at h
          simp at h
          simp [contributesTo, hv, ← h]
        | cons x xs => simp [aggStep, hv, JVal.truthy] at h
  | null => simp [aggStep] at h
  | bool b => simp [aggStep] at h
  | num q => simp [aggStep] at h
  | str s => simp [aggStep] at h
  | arr xs => simp [aggStep] at h

theorem aggLoop_find (es : List JVal) : ∀ (stats0 stats : Stats),
    aggLoop stats0 es = .ok stats → ∀ ep,
    statsFind stats ep =
      match statsFind stats0 ep with
      | some ct => some (ct.1 + cntOf ep es, ct.2 + sumOf ep es)
      | none => if cntOf ep es = 0 then none
                else some (cntOf ep es, sumOf ep es) := by
  induction es with
  | nil =>
    intro s0 s h ep
    have hs : s0 = s := by simpa [aggLoop] using h
    subst hs
    cases hf : statsFind s0 ep <;> simp [cntOf, sumOf, hf]
  | cons e es ih =>
    intro s0 s h ep
    rcases hs : aggStep s0 e with err | s1
    · simp [aggLoop, hs] at h
    · simp only [aggLoop, hs] at h
      have hstep := aggStep_find s0 s1 e hs ep
      have hrec := ih s1 s h ep
      by_cases hc : contributesTo ep e
      · have hcnt : cntOf ep (e :: es) = cntOf ep es + 1 := by
          simp [cntOf, List.filter_cons, hc, Nat.add_comm]
        have hsum : sumOf ep (e :: es) = rtValue e + sumOf ep es := by
          simp [sumOf, List.filter_cons, hc]
        rw [hrec, hstep]
        simp only [hc, if_true]
        cases hf : statsFind s0 ep with
        | none =>
          simp only [hf, hcnt, hsum]
          have hne : ¬ (cntOf ep es + 1 = 0) := by omega
          simp only [hne, if_false, Option.some.injEq, Prod.mk.injEq]
          constructor
          · omega
          · ring_nf
        | some ct =>
          simp only [hf, hcnt, hsum, Option.some.injEq, Prod.mk.injEq]
          constructor
          · omega
          · ring_nf
      · have hcnt : cntOf ep (e :: es) = cntOf ep es := by
          simp [cntOf, List.filter_cons, hc]
        have hsum : sumOf ep (e :: es) = sumOf ep es := by
          simp [sumOf, List.filter_cons, hc]
        rw [hrec, hstep]
        simp [hc, hcnt, hsum]

theorem aggStep_cases (stats s1 : Stats) (e : JVal) (h : aggStep stats e = .ok s1) :
    s1 = stats ∨ ∃ ep q, s1 = bump stats ep q := by
  cases e with
  | obj kvs =>
    rcases hv : jlookup kvs "url" with _ | v
    · left
      simp only [aggStep, hv, Option.getD_none, JVal.truthy] at h
      simp at h
      exact h.symm
    · cases v with
      | str u =>
        by_cases hu : u = ""
        · left
          subst hu
          simp only [aggStep, hv, Option.getD_some, JVal.truthy] at h
          simp at h
          exact h.symm
        · rcases hq : jnum? ((jlookup kvs "response_time").getD (.num 0)) with _ | q
          · simp only [aggStep, hv, Option.getD_some, JVal.truthy] at h
            simp [hu, hq] at h
          · right
            refine ⟨stripQuery u, q, ?_⟩
            simp only [aggStep, hv, Option.getD_some, JVal.truthy] at h
            simp [hu, hq] at h
            exact h.symm
      | null =>
        left
        simp only [aggStep, hv, Option.getD_some, JVal.truthy] at h
        simp at h
        exact h.symm
      | bool b =>
        cases b
        · left
          simp only [aggStep, hv, Option.getD_some, JVal.truthy] at h
          simp at h
          exact h.symm
        · simp [aggStep, hv, JVal.truthy] at h
      | num q =>
        by_cases hq : q = 0
        · left
          subst hq
          simp only [aggStep, hv, Option.getD_some, JVal.truthy] at h
          simp at h
          exact h.symm
        · simp [aggStep, hv, JVal.truthy, hq] at h
      | arr xs =>
        cases xs with
        | nil =>
          left
          simp only [aggStep, hv, Option.getD_some, JVal.truthy, List.isEmpty_nil] at h
          simp at h
          exact h.symm
        | cons x xs => simp [aggStep, hv, JVal.truthy] at h
      | obj kvs2 =>
        cases kvs2 with
        | nil =>
          left
          simp only [aggStep, hv, Option.getD_some, JVal.truthy, List.isEmpty_nil] at h
          simp at h
          exact h.symm
        | cons x xs => simp [aggStep, hv, JVal.truthy] at h
  | null => simp [aggStep] at h
  | bool b => simp [aggStep] at h
  | num q => simp [aggStep] at h
  | str s => simp [aggStep] at h
  | arr xs => simp [aggStep] at h

theorem bump_pos (stats : Stats) (ep : String) (q : Rat)
    (h : ∀ kv ∈ stats, 0 < kv.2.1) : ∀ kv ∈ bump stats ep q, 0 < kv.2.1 := by
  induction stats with
  | nil =>
    intro kv hkv
    simp [bump] at hkv
    simp [hkv]
  | cons hd rest ih =>
    intro kv hkv
    by_cases hk : hd.1 = ep
    · simp [bump, hk] at hkv
      rcases hkv with hkv | hkv
      · simp [hkv]
      · exact h kv (List.mem_cons_of_mem hd hkv)
    · simp [bump, hk] at hkv
      rcases hkv with hkv | hkv
      · exact h kv (hkv ▸ List.mem_cons_self hd rest)
      · exact ih (fun z hz => h z (List.mem_cons_of_mem hd hz)) kv hkv

theorem aggLoop_pos (es : List JVal) : ∀ (s0 s : Stats),
    aggLoop s0 es = .ok s → (∀ kv ∈ s0, 0 < kv.2.1) → ∀ kv ∈ s, 0 < kv.2.1 := by
  induction es with
  | nil =>
    intro s0 s h hp
    have hs : s0 = s := by simpa [aggLoop] using h
    exact hs ▸ hp
  | cons e es ih =>
    intro s0 s h hp
    rcases hs : aggStep s0 e with err | s1
    · simp [aggLoop, hs] at h
    · simp only [aggLoop, hs] at h
      rcases aggStep_cases s0 s1 e hs with hc | ⟨ep, q, hc⟩
      · exact ih s1 s h (hc ▸ hp)
      · exact ih s1 s h (hc ▸ bump_pos s0 ep q hp)

/-- C6.  For every record list whose aggregation completes, each endpoint
present in the mapping has `count` equal to the number of records grouped
under it and `total_time` equal to the sum of their response times; every
present count is at least 1, so the `count > 0` guard in the average
computation always takes the division branch (the 0 fallback is dead). -/
theorem spec_c6 (entries : List JVal) (stats : Stats)
    (h : aggregate entries = .ok stats) :
    (∀ ep c t, statsFind stats ep = some (c, t) →
        c = cntOf ep entries ∧ t = sumOf ep entries ∧ 1 ≤ c)
    ∧ tableOf stats
        = stats.map (fun kv => (kv.1, kv.2.1, format3 (kv.2.2 / (kv.2.1 : Rat)))) := by
  constructor
  · intro ep c t hf
    have hinv := aggLoop_find entries [] stats h ep
    rw [hf] at hinv
    simp only [statsFind] at hinv
    by_cases hz : cntOf ep entries = 0
    · simp [hz] at hinv
    · simp only [hz, if_false] at hinv
      simp at hinv
      refine ⟨hinv.1, hinv.2, ?_⟩
      omega
  · have hpos : ∀ kv ∈ stats, 0 < kv.2.1 :=
      aggLoop_pos entries [] stats h (by simp)
    unfold tableOf
    apply List.map_congr_left
    intro kv hkv
    simp [hpos kv hkv]

/-- Witness for C6: one record on `/api/test` with time 0.1 aggregates to
count 1 and total 0.1. -/
theorem spec_c6_witness :
    aggregate [recT1] = .ok [("/api/test", 1, 1 / 10)]
    ∧ (1 = cntOf "/api/test" [recT1] ∧ (1 / 10 : Rat) = sumOf "/api/test" [recT1]
        ∧ 1 ≤ 1) :=
  ⟨rfl,
   (spec_c6 [recT1] [("/api/test", 1, 1 / 10)] rfl).1 "/api/test" 1 (1 / 10) rfl⟩

theorem mem_insDesc (x z : Row) (l : List Row) (h : z ∈ insDesc x l) :
    z = x ∨ z ∈ l := by
  induction l with
  | nil =>
    simp [insDesc] at h
    exact Or.inl h
  | cons y ys ih =>
    by_cases hc : x.2.1 < y.2.1
    · simp only [insDesc, if_pos hc] at h
      rcases List.mem_cons.mp h with h | h
      · exact Or.inr (List.mem_cons.mpr (Or.inl h))
      · rcases ih h with h2 | h2
        · exact Or.inl h2
        · exact Or.inr (List.mem_cons.mpr (Or.inr h2))
    · simp only [insDesc, if_neg hc] at h
      rcases List.mem_cons.mp h with h | h
      · exact Or.inl h
      · exact Or.inr h

theorem pairwise_insDesc (x : Row) (l : List Row)
    (h : l.Pairwise (fun a b => b.2.1 ≤ a.2.1)) :
    (insDesc x l).Pairwise (fun a b => b.2.1 ≤ a.2.1) := by
  induction l with
  | nil => simp [insDesc]
  | cons y ys ih =>
    rcases List.pairwise_cons.mp h with ⟨hy, hys⟩
    by_cases hc : x.2.1 < y.2.1
    · simp only [insDesc, if_pos hc]
      refine List.pairwise_cons.mpr ⟨?_, ih hys⟩
      intro z hz
      rcases mem_insDesc x z ys hz with rfl | hz2
      · omega
      · exact hy z hz2
    · simp only [insDesc, if_neg hc]
      refine List.pairwise_cons.mpr ⟨?_, h⟩
      intro z hz
      rcases List.mem_cons.mp hz with rfl | hz2
      · omega
      · have := hy z hz2
        omega

theorem pairwise_sortDesc (l : List Row) :
    (sortDesc l).Pairwise (fun a b => b.2.1 ≤ a.2.1) := by
  induction l with
  | nil => simp [sortDesc]
  | cons x xs ih =>
    simp only [sortDesc]
    exact pairwise_insDesc x _ ih

theorem mem_sortDesc (z : Row) (l : List Row) (h : z ∈ sortDesc l) : z ∈ l := by
  induction l with
  | nil => simp [sortDesc] at h
  | cons x xs ih =>
    simp only [sortDesc] at h
    rcases mem_insDesc x z (sortDesc xs) h with rfl | h2
    · exact List.mem_cons_self z xs
    · exact List.mem_cons_of_mem x (ih h2)

theorem filter_insDesc (c : Nat) (x : Row) (l : List Row) :
    (insDesc x l).filter (fun r => r.2.1 == c)
      = if x.2.1 = c then x :: l.filter (fun r => r.2.1 == c)
        else l.filter (fun r => r.2.1 == c) := by
  induction l with
  | nil => by_cases hx : x.2.1 = c <;> simp [insDesc, List.filter_cons, hx]
  | cons y ys ih =>
    by_cases hc : x.2.1 < y.2.1
    · simp only [insDesc, if_pos hc, List.filter_cons]
      by_cases hx : x.2.1 = c
      · have hy : ¬ (y.2.1 = c) := by omega
        simp [hx, hy, ih]
      · by_cases hy : y.2.1 = c <;> simp [hx, hy, ih]
    · simp only [insDesc, if_neg hc, List.filter_cons]
      by_cases hx : x.2.1 = c <;> by_cases hy : y.2.1 = c <;> simp [hx, hy]

theorem filter_sortDesc (c : Nat) (l : List Row) :
    (sortDesc l).filter (fun r => r.2.1 == c) = l.filter (fun r => r.2.1 == c) := by
  induction l with
  | nil => rfl
  | cons x xs ih =>
    rw [show sortDesc (x :: xs) = insDesc x (sortDesc xs) from rfl, filter_insDesc]
    by_cases hx : x.2.1 = c <;> simp [List.filter_cons, hx, ih]

theorem enumFromN_length (l : List Row) : ∀ i, (enumFromN i l).length = l.length := by
  induction l with
  | nil => intro i; rfl
  | cons r rs ih => intro i; simp [enumFromN, ih]

theorem enumFromN_map_snd (l : List Row) : ∀ i, (enumFromN i l).map Prod.snd = l := by
  induction l with
  | nil => intro i; rfl
  | cons r rs ih => intro i; simp [enumFromN, ih]

theorem enumFromN_getElem (l : List Row) :
    ∀ (i j : Nat) (hj : j < (enumFromN i l).length) (hj2 : j < l.length),
    (enumFromN i l)[j] = (i + j, l[j]) := by
  induction l with
  | nil => intro i j hj hj2; simp at hj2
  | cons r rs ih =>
    intro i j hj hj2
    cases j with
    | zero => simp [enumFromN]
    | succ j' =>
      have h1 : j' < (enumFromN (i + 1) rs).length := by
        have := enumFromN_length rs (i + 1)
        simp [enumFromN] at hj
        omega
      have h2 : j' < rs.length := by
        simp at hj2
        omega
      have hstep : (enumFromN i (r :: rs))[j' + 1] = (enumFromN (i + 1) rs)[j'] := by
        simp [enumFromN]
      rw [hstep, ih (i + 1) j' h1 h2]
      have : (r :: rs)[j' + 1] = rs[j'] := by simp
      rw [this]
      refine Prod.ext ?_ rfl
      simp
      omega

theorem generate_table_eq (entries : List JVal) (rows : List (Nat × Row))
    (h : generate_average_report entries = .ok (.table rows)) :
    ∃ stats, aggregate entries = .ok stats
      ∧ rows = rankRows (sortDesc (tableOf stats)) := by
  by_cases he : entries.isEmpty
  · simp [generate_average_report, he] at h
  · rcases ha : aggregate entries with err | stats
    · simp [generate_average_report, he, ha] at h
    · by_cases hs : stats.isEmpty
      · simp [generate_average_report, he, ha, hs] at h
      · simp [generate_average_report, he, ha, hs] at h
        exact ⟨stats, rfl, h.symm⟩

/-- C3.  The report rows are sorted by count descending; rows with equal
counts appear in the same relative order as in the discovery-ordered
table (the sort is stable); and each row's rank is its 0-based position
after sorting. -/
theorem spec_c3 (entries : List JVal) (rows : List (Nat × Row))
    (h : generate_average_report entries = .ok (.table rows)) :
    (∀ i j (hi : i < rows.length) (hj : j < rows.length), i < j →
        (rows[j]).2.2.1 ≤ (rows[i]).2.2.1)
    ∧ (∃ stats, aggregate entries = .ok stats ∧
        ∀ c : Nat, (rows.map Prod.snd).filter (fun r => r.2.1 == c)
          = (tableOf stats).filter (fun r => r.2.1 == c))
    ∧ (∀ i (hi : i < rows.length), (rows[i]).1 = i) := by
  rcases generate_table_eq entries rows h with ⟨stats, ha, hrows⟩
  subst hrows
  refine ⟨?_, ⟨stats, ha, ?_⟩, ?_⟩
  · intro i j hi hj hij
    simp only [rankRows] at hi hj ⊢
    have hlen := enumFromN_length (sortDesc (tableOf stats)) 0
    have hi2 : i < (sortDesc (tableOf stats)).length := by omega
    have hj2 : j < (sortDesc (tableOf stats)).length := by omega
    have hgi := enumFromN_getElem (sortDesc (tableOf stats)) 0 i hi hi2
    have hgj := enumFromN_getElem (sortDesc (tableOf stats)) 0 j hj hj2
    rw [hgi, hgj]
    have hp := pairwise_sortDesc (tableOf stats)
    exact List.pairwise_iff_getElem.mp hp i j hi2 hj2 hij
  · intro c
    rw [rankRows, enumFromN_map_snd, filter_sortDesc]
  · intro i hi
    simp only [rankRows] at hi ⊢
    have hi2 : i < (sortDesc (tableOf stats)).length := by
      have := enumFromN_length (sortDesc (tableOf stats)) 0
      omega
    have hgi := enumFromN_getElem (sortDesc (tableOf stats)) 0 i hi hi2
    rw [hgi]
    simp

theorem format3_nonneg_eval (q : Rat) (n : Nat) (hq : 0 ≤ q)
    (hmul : q * 1000 = (n : Rat)) :
    format3 q = Nat.repr (n / 1000) ++ "." ++ padNat 3 (n % 1000) := by
  have hnn : ¬ q < 0 := not_lt.mpr hq
  rw [format3, if_neg hnn]
  simp only [format3abs]
  rw [hmul]
  have hr : rhe (n : Rat) = (n : Int) := by
    unfold rhe
    have hfl : ⌊(n : Rat)⌋ = (n : Int) := by
      exact_mod_cast Int.floor_natCast n
    simp only [hfl]
    have h0 : (n : Rat) - ((n : Int) : Rat) = 0 := by push_cast; ring
    rw [h0]
    norm_num
  rw [hr, Int.toNat_natCast]

theorem aggC8_eval : aggregate entsC8 = .ok [("/api/test", 2, 3 / 10)] := by
  have h0 : aggregate entsC8 = .ok [("/api/test", 2, 1 / 10 + 1 / 5)] := rfl
  rw [h0]
  norm_num

theorem fmtC8_eval : format3 ((3 : Rat) / 10 / ((2 : Nat) : Rat)) = "0.150" := by
  rw [format3_nonneg_eval _ 150 (by norm_num) (by norm_num)]
  rfl

theorem genC8_eval :
    generate_average_report entsC8 = .ok (.table rowsC8) := by
  have h1 : generate_average_report entsC8
      = .ok (.table (rankRows (sortDesc (tableOf [("/api/test", 2, 3 / 10)])))) := by
    unfold generate_average_report
    rw [aggC8_eval]
    rfl
  rw [h1]
  have ht : tableOf [("/api/test", 2, 3 / 10)]
      = [("/api/test", 2, format3 ((3 : Rat) / 10 / ((2 : Nat) : Rat)))] := rfl
  rw [ht, fmtC8_eval]
  rfl

theorem aggC3_eval : aggregate entsC3
    = .ok [("/api/rare", 1, 1 / 10), ("/api/common", 3, 3 / 10),
           ("/api/other", 1, 1 / 10)] := by
  have h0 : aggregate entsC3
      = .ok [("/api/rare", 1, 1 / 10), ("/api/common", 3, 1 / 10 + 1 / 10 + 1 / 10),
             ("/api/other", 1, 1 / 10)] := rfl
  rw [h0]
  norm_num

theorem fmtC3a : format3 ((1 : Rat) / 10 / ((1 : Nat) : Rat)) = "0.100" := by
  rw [format3_nonneg_eval _ 100 (by norm_num) (by norm_num)]
  rfl

theorem fmtC3b : format3 ((3 : Rat) / 10 / ((3 : Nat) : Rat)) = "0.100" := by
  rw [format3_nonneg_eval _ 100 (by norm_num) (by norm_num)]
  rfl

theorem genC3_eval :
    generate_average_report entsC3 = .ok (.table rowsC3) := by
  have h1 : generate_average_report entsC3
      = .ok (.table (rankRows (sortDesc (tableOf
          [("/api/rare", 1, 1 / 10), ("/api/common", 3, 3 / 10),
           ("/api/other", 1, 1 / 10)])))) := by
    unfold generate_average_report
    rw [aggC3_eval]
    rfl
  rw [h1]
  have ht : tableOf [("/api/rare", 1, 1 / 10), ("/api/common", 3, 3 / 10),
        ("/api/other", 1, 1 / 10)]
      = [("/api/rare", 1, format3 ((1 : Rat) / 10 / ((1 : Nat) : Rat))),
         ("/api/common", 3, format3 ((3 : Rat) / 10 / ((3 : Nat) : Rat))),
         ("/api/other", 1, format3 ((1 : Rat) / 10 / ((1 : Nat) : Rat)))] := rfl
  rw [ht, fmtC3a, fmtC3b]
  rfl

/-- Witness for C3: the spec's counts-[1, 3, 1] example renders the
count-3 endpoint first, the two count-1 endpoints in first-seen order,
and 0-based ranks equal to positions. -/
theorem spec_c3_witness :
    (∀ i j (hi : i < rowsC3.length) (hj : j < rowsC3.length), i < j →
        (rowsC3[j]).2.2.1 ≤ (rowsC3[i]).2.2.1)
    ∧ (∃ stats, aggregate entsC3 = .ok stats ∧
        ∀ c : Nat, (rowsC3.map Prod.snd).filter (fun r => r.2.1 == c)
          = (tableOf stats).filter (fun r => r.2.1 == c))
    ∧ (∀ i (hi : i < rowsC3.length), (rowsC3[i]).1 = i) :=
  spec_c3 entsC3 rowsC3 genC3_eval

/-- C8.  Every rendered row's displayed average is exactly
`total_time / count` formatted to three decimal places, and the spec's
example — response times 0.1 and 0.2 on one endpoint — renders as
`0.150`. -/
theorem spec_c8 :
    (∀ (entries : List JVal) (rows : List (Nat × Row)),
      generate_average_report entries = .ok (.table rows) →
      ∀ r ∈ rows, ∃ stats kv, aggregate entries = .ok stats ∧ kv ∈ stats ∧
        0 < kv.2.1 ∧ r.2 = (kv.1, kv.2.1, format3 (kv.2.2 / (kv.2.1 : Rat))))
    ∧ generate_average_report entsC8 = .ok (.table rowsC8) := by
  constructor
  · intro entries rows h r hr
    rcases generate_table_eq entries rows h with ⟨stats, ha, hrows⟩
    subst hrows
    have hpos : ∀ kv ∈ stats, 0 < kv.2.1 :=
      aggLoop_pos entries [] stats ha (by simp)
    have hsnd : r.2 ∈ sortDesc (tableOf stats) := by
      have hm : r.2 ∈ (rankRows (sortDesc (tableOf stats))).map Prod.snd :=
        List.mem_map_of_mem Prod.snd hr
      rwa [rankRows, enumFromN_map_snd] at hm
    have hmem : r.2 ∈ tableOf stats := mem_sortDesc _ _ hsnd
    rcases List.mem_map.mp hmem with ⟨kv, hkv, heq⟩
    refine ⟨stats, kv, ha, hkv, hpos kv hkv, ?_⟩
    rw [← heq]
    simp [hpos kv hkv]
  · exact genC8_eval

/-- Witness for C8: the single row of the 0.1/0.2 example. -/
theorem spec_c8_witness :
    ∀ r ∈ rowsC8, ∃ stats kv, aggregate entsC8 = .ok stats ∧ kv ∈ stats ∧
      0 < kv.2.1 ∧ r.2 = (kv.1, kv.2.1, format3 (kv.2.2 / (kv.2.1 : Rat))) :=
  spec_c8.1 entsC8 rowsC8 genC8_eval

theorem aggStep_wt (stats : Stats) (e : JVal) (h : wellTyped e = true) :
    ∃ s1, aggStep stats e = .ok s1 := by
  cases e with
  | obj kvs =>
    rcases hv : jlookup kvs "url" with _ | v
    · exact ⟨stats, by simp [aggStep, hv, JVal.truthy]⟩
    · by_cases ht : v.truthy = true
      · cases v with
        | str u =>
          have hu : ¬ u = "" := by simpa [JVal.truthy] using ht
          rcases hrt : jlookup kvs "response_time" with _ | w
          · exact ⟨bump stats (stripQuery u) 0,
              by simp [aggStep, hv, hrt, JVal.truthy, hu, jnum?]⟩
          · cases w with
            | num q =>
              exact ⟨bump stats (stripQuery u) q,
                by simp [aggStep, hv, hrt, JVal.truthy, hu, jnum?]⟩
            | null => simp [wellTyped, hv, hrt, ht] at h
            | bool b => simp [wellTyped, hv, hrt, ht] at h
            | str s => simp [wellTyped, hv, hrt, ht] at h
            | arr xs => simp [wellTyped, hv, hrt, ht] at h
            | obj kvs2 => simp [wellTyped, hv, hrt, ht] at h
        | null => simp [JVal.truthy] at ht
        | bool b => simp [wellTyped, hv, ht] at h
        | num q => simp [wellTyped, hv, ht] at h
        | arr xs => simp [wellTyped, hv, ht] at h
        | obj kvs2 => simp [wellTyped, hv, ht] at h
      · have hf : v.truthy = false := by
          cases hb : v.truthy
          · rfl
          · exact absurd hb ht
        exact ⟨stats, by simp [aggStep, hv, hf]⟩
  | null => simp [wellTyped] at h
  | bool b => simp [wellTyped] at h
  | num q => simp [wellTyped] at h
  | str s => simp [wellTyped] at h
  | arr xs => simp [wellTyped] at h

theorem aggLoop_wt (es : List JVal) : ∀ (s0 : Stats),
    (∀ e ∈ es, wellTyped e = true) → ∃ s, aggLoop s0 es = .ok s := by
  induction es with
  | nil =>
    intro s0 _
    exact ⟨s0, rfl⟩
  | cons e es ih =>
    intro s0 h
    rcases aggStep_wt s0 e (h e (by simp)) with ⟨s1, hs⟩
    rcases ih s1 (fun x hx => h x (by simp [hx])) with ⟨s, hl⟩
    exact ⟨s, by simp [aggLoop, hs, hl]⟩

/-- C9.  `generate_average_report` completes without raising on every
entries list of dicts whose present truthy `url` values are strings with
numeric-or-absent `response_time`s; a truthy non-string `url` (here the
JSON number 5) raises an uncaught `AttributeError` — the warn-and-skip
tolerance does not extend to type errors inside the aggregator. -/
theorem spec_c9 :
    (∀ entries : List JVal, (∀ e ∈ entries, wellTyped e = true) →
      ∃ r, generate_average_report entries = .ok r)
    ∧ generate_average_report [.obj [("url", .num 5)]] = .error .attributeError := by
  constructor
  · intro entries h
    by_cases he : entries.isEmpty
    · exact ⟨.noEntries, by simp [generate_average_report, he]⟩
    · rcases aggLoop_wt entries [] h with ⟨stats, hs⟩
      by_cases hst : stats.isEmpty
      · exact ⟨.noEndpoints, by simp [generate_average_report, he, aggregate, hs, hst]⟩
      · exact ⟨.table (rankRows (sortDesc (tableOf stats))),
          by simp [generate_average_report, he, aggregate, hs, hst]⟩
  · rfl

/-- Witness for C9: the well-typed 0.1/0.2 example list completes. -/
theorem spec_c9_witness : ∃ r, generate_average_report entsC8 = .ok r :=
  spec_c9.1 entsC8 (by decide)

/-- C7 (amended).  Exit codes in the order `main` checks them: an
invalid active `--date` exits 1 before any file is read; with a valid
(or no) date, zero ingested records exits 1; with records present, a
date filter that removes every record prints the informational message
and exits 0 — this check precedes the report-type dispatch, so an
unrecognized `--report` value exits 1 only when at least one record
survives the filter; and an empty aggregation mapping with records
present yields exactly the "No valid endpoints found" report. -/
theorem spec_c7 (decode : String → Option JVal) (args : Args) :
    (∀ d, args.date = some d → d ≠ "" → strptimeYMD d = false →
        mainRun decode args = ⟨.exited 1, [.invalidDate d], none⟩)
    ∧ (dateOk args → (read_log_files decode args.file).1 = [] →
        (mainRun decode args).outcome = .exited 1
          ∧ Msg.noValidEntries ∈ (mainRun decode args).msgs)
    ∧ (∀ d, args.date = some d → d ≠ "" → strptimeYMD d = true →
        (read_log_files decode args.file).1 ≠ [] →
        filter_by_date (read_log_files decode args.file).1 d = .ok [] →
        (mainRun decode args).outcome = .exited 0
          ∧ Msg.noEntriesForDate d ∈ (mainRun decode args).msgs)
    ∧ (∀ l, dateOk args → (read_log_files decode args.file).1 ≠ [] →
        postFilter decode args = some l → l ≠ [] → args.report ≠ "average" →
        (mainRun decode args).outcome = .exited 1
          ∧ Msg.unknownReport args.report ∈ (mainRun decode args).msgs)
    ∧ (∀ entries : List JVal, entries ≠ [] → aggregate entries = .ok [] →
        generate_average_report entries = .ok .noEndpoints) := by
  refine ⟨?_, ?_, ?_, ?_, ?_⟩
  · intro d hd hne hbad
    simp [mainRun, hd, hne, hbad]
  · intro hok hempty
    rcases hdate : args.date with _ | d
    · simp [mainRun, hdate, mainIngest, hempty]
    · by_cases hne : d = ""
      · simp [mainRun, hdate, hne, mainIngest, hempty]
      · have hval := hok d hdate hne
        simp [mainRun, hdate, hne, hval, mainIngest, hempty]
  · intro d hd hne hval hnonempty hfilter
    have hie : (read_log_files decode args.file).1.isEmpty = false := by
      simpa [List.isEmpty_iff] using hnonempty
    simp [mainRun, hd, hne, hval, mainIngest, hie, hfilter]
  · intro l hok hnonempty hpf hlne hrep
    have hie : (read_log_files decode args.file).1.isEmpty = false := by
      simpa [List.isEmpty_iff] using hnonempty
    have hle : l.isEmpty = false := by simpa [List.isEmpty_iff] using hlne
    rcases hdate : args.date with _ | d
    · simp only [postFilter, hdate] at hpf
      simp only [Option.some.injEq] at hpf
      subst hpf
      simp [mainRun, hdate, mainIngest, hie, reportStage, hrep]
    · by_cases hne : d = ""
      · simp only [postFilter, hdate, hne] at hpf
        simp at hpf
        subst hpf
        simp [mainRun, hdate, hne, mainIngest, hie, reportStage, hrep]
      · have hval := hok d hdate hne
        simp only [postFilter, hdate, if_pos hne] at hpf
        rcases hf : filter_by_date (read_log_files decode args.file).1 d with e | fs
        · rw [hf] at hpf
          simp at hpf
        · rw [hf] at hpf
          simp only [Option.some.injEq] at hpf
          subst hpf
          simp [mainRun, hdate, hne, hval, mainIngest, hie, hf, hle,
            reportStage, hrep]
  · intro entries hne hagg
    have hie : entries.isEmpty = false := by simpa [List.isEmpty_iff] using hne
    simp [generate_average_report, hie, hagg]

/-- Counterexample to C7 as stated: with `--report totals` (unrecognized)
and a `--date` matching no record, the process exits 0, not 1 — the
benign empty-filter exit takes precedence over the report-type check. -/
theorem spec_c7_cex :
    argsCex7.report ≠ "average"
    ∧ (mainRun exampleDecode argsCex7).outcome = .exited 0 := by
  constructor
  · decide
  · rfl

/-- Witness for C7: a malformed date exits 1; an empty source exits 1; a
filtered-out day exits 0 with its message; an unrecognized report with a
surviving record exits 1 with its message; a record list without urls
reports "No valid endpoints found". -/
theorem spec_c7_witness :
    mainRun exampleDecode argsBadDate = ⟨.exited 1, [.invalidDate "2025-13-01"], none⟩
    ∧ ((mainRun exampleDecode argsNoRecords).outcome = .exited 1
        ∧ Msg.noValidEntries ∈ (mainRun exampleDecode argsNoRecords).msgs)
    ∧ ((mainRun exampleDecode argsCex7).outcome = .exited 0
        ∧ Msg.noEntriesForDate "2025-06-23" ∈ (mainRun exampleDecode argsCex7).msgs)
    ∧ ((mainRun exampleDecode argsBadReport).outcome = .exited 1
        ∧ Msg.unknownReport "totals" ∈ (mainRun exampleDecode argsBadReport).msgs)
    ∧ generate_average_report [recB] = .ok .noEndpoints :=
  ⟨(spec_c7 exampleDecode argsBadDate).1 "2025-13-01" rfl (by decide) (by decide),
   (spec_c7 exampleDecode argsNoRecords).2.1 (fun d hd => nomatch hd) rfl,
   (spec_c7 exampleDecode argsCex7).2.2.1 "2025-06-23" rfl (by decide) (by decide)
     (fun h => List.noConfusion h) rfl,
   (spec_c7 exampleDecode argsBadReport).2.2.2.1 [recA] (fun d hd => nomatch hd)
     (fun h => List.noConfusion h) rfl (fun h => List.noConfusion h) (by decide),
   (spec_c7 exampleDecode argsBadReport).2.2.2.2 [recB]
     (fun h => List.noConfusion h) rfl⟩

theorem reportStage_arg (args : Args) (base : List Msg) (entries : List JVal)
    (l : List JVal) (h : (reportStage args base entries).reportArg = some l) :
    l = entries := by
  unfold reportStage at h
  by_cases hr : args.report = "average"
  · simp only [hr, if_true] at h
    rcases hg : generate_average_report entries with e | r
    · rw [hg] at h
      simp at h
      exact h.symm
    · rw [hg] at h
      simp at h
      exact h.symm
  · simp [hr] at h

theorem mainIngest_arg (decode : String → Option JVal) (args : Args)
    (dOpt : Option String) (l : List JVal)
    (h : (mainIngest decode args dOpt).reportArg = some l) : l ≠ [] := by
  unfold mainIngest at h
  by_cases hre : (read_log_files decode args.file).1.isEmpty
  · simp [hre] at h
  · simp only [hre, Bool.false_eq_true, if_false] at h
    rcases dOpt with _ | d
    · simp only at h
      have := reportStage_arg args _ _ l h
      subst this
      simpa [List.isEmpty_iff] using hre
    · simp only at h
      rcases hf : filter_by_date (read_log_files decode args.file).1 d with e | fs
      · rw [hf] at h
        simp at h
      · rw [hf] at h
        by_cases hfe : fs.isEmpty
        · simp [hfe] at h
        · simp only [hfe, Bool.false_eq_true, if_false] at h
          have := reportStage_arg args _ _ l h
          subst this
          simpa [List.isEmpty_iff] using hfe

/-- C10.  Whenever the CLI pipeline reaches `generate_average_report`,
the entries list it passes is non-empty — ingestion emptiness exits 1
and post-filter emptiness exits 0 beforehand — so the report's
"No log entries found" branch is unreachable through `main`. -/
theorem spec_c10 (decode : String → Option JVal) (args : Args) (l : List JVal)
    (h : (mainRun decode args).reportArg = some l) :
    l ≠ [] ∧ generate_average_report l ≠ .ok .noEntries := by
  have hl : l ≠ [] := by
    unfold mainRun at h
    rcases hdate : args.date with _ | d
    · rw [hdate] at h
      exact mainIngest_arg decode args none l h
    · rw [hdate] at h
      by_cases hne : d = ""
      · simp only [hne, ne_eq, not_true_eq_false, if_false] at h
        exact mainIngest_arg decode args none l h
      · simp only [if_pos hne] at h
        by_cases hval : strptimeYMD d
        · simp only [hval, if_true] at h
          exact mainIngest_arg decode args (some d) l h
        · simp [hval] at h
  refine ⟨hl, ?_⟩
  intro hg
  have hie : l.isEmpty = false := by simpa [List.isEmpty_iff] using hl
  rw [generate_average_report] at hg
  rw [hie] at hg
  simp only [Bool.false_eq_true, if_false] at hg
  rcases ha : aggregate l with e | stats
  · rw [ha] at hg
    exact Except.noConfusion hg
  · rw [ha] at hg
    by_cases hs : stats.isEmpty
    · simp [hs] at hg
    · simp [hs] at hg

/-- Witness for C10: a successful `--report average` run hands the
single ingested record to the report generator. -/
theorem spec_c10_witness :
    [recA] ≠ [] ∧ generate_average_report [recA] ≠ .ok .noEntries :=
  spec_c10 exampleDecode argsAvg [recA] rfl
